import Mathlib

/-!
Verification development for the booking form component
(`app/components/booking/form.tsx`): a shallow embedding of the
status-and-action-dependent validation rule selector (`BookingFormSchema`),
the zod field schemas it assembles, and the derived end-date adjuster in the
start-date `onChange` handler, together with theorems settling the frozen
claims about them.

Modelling conventions:
- zod validation outcomes are modelled as `ParseOutcome`: a success carrying
  the parsed record, a structured failure carrying the collected field
  issues, or a thrown exception (zod does not catch exceptions raised inside
  a `transform`, so `JSON.parse` failures escape `safeParse`).
- JavaScript `Date` values are modelled as calendar fields (`JSDate`); the
  numeric timestamp used by `Date` comparisons is computed with the standard
  civil-calendar day count. All values live in a single (local) time frame.
- `JSON.parse` is modelled by an executable recursive-descent parser over
  the character list of the input (numbers are modelled as decimal
  mantissa/scale pairs; exponent notation is not modelled, which is
  irrelevant to the claims under verification).
- The ambient clock and the timezone view used by the future-date refinement
  (`new Date()` and `toLocaleString` with a timeZone) are supplied by an
  explicit environment `Env`.
-/

namespace BookingForm

/-- A structured validation issue: the field path and the message, as zod
collects them. -/
structure Issue where
  path : List String
  message : String
deriving DecidableEq, Repr

/-- The booking lifecycle statuses from the Prisma `BookingStatus` enum. -/
inductive BookingStatus where
  | DRAFT
  | RESERVED
  | ONGOING
  | OVERDUE
  | COMPLETED
  | CANCELLED
  | ARCHIVED
deriving DecidableEq, Repr

/-- The caller-supplied client hints; only the IANA timezone name is used by
the schema selector. -/
structure Hints where
  timeZone : String
deriving DecidableEq, Repr

/-- The ambient-time environment: `ambientNow` models the timestamp of
`new Date()`, and `tzView zone` models the timestamp obtained by
`new Date(new Date().toLocaleString("en-US", \x7b timeZone: zone \x7d))`,
i.e. the current wall-clock time as seen in the given zone. -/
structure Env where
  ambientNow : Int
  tzView : String → Int

/-- The parsed custodian object: `\x7b id, name, userId? \x7d`. The
`userId` field distinguishes absent (`none`), JSON null (`some none`) and a
string (`some (some s)`), matching `z.string().optional().nullable()`. -/
structure Custodian where
  id : String
  name : String
  userId : Option (Option String)
deriving DecidableEq, Repr

/-- A JavaScript `Date` restricted to the shapes produced by the
`datetime-local` inputs of the form: calendar fields at second precision. -/
structure JSDate where
  year : Int
  month : Nat
  day : Nat
  hour : Nat
  minute : Nat
  second : Nat
deriving DecidableEq, Repr

/-- Days between the given civil date and 1970-01-01 (standard
days-from-civil computation, truncating integer division). -/
def daysFromCivil (y : Int) (m : Nat) (d : Nat) : Int :=
  let y2 : Int := if m ≤ 2 then y - 1 else y
  let era : Int := (if 0 ≤ y2 then y2 else y2 - 399) / 400
  let yoe : Int := y2 - era * 400
  let mp : Int := (Int.ofNat m + 9) % 12
  let doy : Int := (153 * mp + 2) / 5 + Int.ofNat d - 1
  let doe : Int := yoe * 365 + yoe / 4 - yoe / 100 + doy
  era * 146097 + doe - 719468

/-- The timestamp of a `JSDate` in seconds since the epoch; models
`Date.prototype.getTime` (up to the constant millisecond factor), which is
what `Date` comparisons in the source compare. -/
def toSecs (d : JSDate) : Int :=
  daysFromCivil d.year d.month d.day * 86400
    + (d.hour : Int) * 3600 + (d.minute : Int) * 60 + (d.second : Int)

/-- Leap year rule of the Gregorian calendar. -/
def isLeap (y : Int) : Bool :=
  (y % 4 == 0 && y % 100 != 0) || y % 400 == 0

/-- Number of days in the given month. -/
def daysInMonth (y : Int) (m : Nat) : Nat :=
  if m = 2 then (if isLeap y then 29 else 28)
  else if m = 4 ∨ m = 6 ∨ m = 9 ∨ m = 11 then 30
  else 31

/-- Range-check the calendar fields and build a `JSDate`; models the
validity check ECMAScript applies when parsing ISO date-time strings. -/
def mkJSDate (y : Int) (mo d h mi s : Nat) : Option JSDate :=
  if 1 ≤ mo ∧ mo ≤ 12 ∧ 1 ≤ d ∧ d ≤ daysInMonth y mo
      ∧ h ≤ 23 ∧ mi ≤ 59 ∧ s ≤ 59 then
    some (JSDate.mk y mo d h mi s)
  else
    none

/-- Numeric value of a decimal digit character. -/
def digitVal (c : Char) : Nat := c.toNat - 48

/-- Two-digit decimal number from its characters. -/
def num2 (a b : Char) : Nat := 10 * digitVal a + digitVal b

/-- Four-digit decimal number from its characters. -/
def num4 (a b c d : Char) : Nat :=
  1000 * digitVal a + 100 * digitVal b + 10 * digitVal c + digitVal d

/-- Parse the textual date-time values handled by the form (the
`datetime-local` input formats `YYYY-MM-DD`, `YYYY-MM-DDTHH:MM` and
`YYYY-MM-DDTHH:MM:SS`); models `new Date(string)` on these inputs, with
`none` standing for an Invalid Date. -/
def parseDateTimeLocal (str : String) : Option JSDate :=
  match str.toList with
  | [a, b, c, d, '-', e, f, '-', g, h] =>
    if [a, b, c, d, e, f, g, h].all Char.isDigit then
      mkJSDate (Int.ofNat (num4 a b c d)) (num2 e f) (num2 g h) 0 0 0
    else none
  | [a, b, c, d, '-', e, f, '-', g, h, 'T', i, j, ':', k, l] =>
    if [a, b, c, d, e, f, g, h, i, j, k, l].all Char.isDigit then
      mkJSDate (Int.ofNat (num4 a b c d)) (num2 e f) (num2 g h)
        (num2 i j) (num2 k l) 0
    else none
  | [a, b, c, d, '-', e, f, '-', g, h, 'T', i, j, ':', k, l, ':', m, n] =>
    if [a, b, c, d, e, f, g, h, i, j, k, l, m, n].all Char.isDigit then
      mkJSDate (Int.ofNat (num4 a b c d)) (num2 e f) (num2 g h)
        (num2 i j) (num2 k l) (num2 m n)
    else none
  | _ => none

/-- The JSON value domain produced by `JSON.parse`. A number is kept as a
decimal mantissa and scale (the value is mantissa divided by ten to the
scale); only its type tag matters to the custodian schema. -/
inductive Json where
  | null
  | bool (b : Bool)
  | num (mantissa : Int) (scale : Nat)
  | str (s : String)
  | arr (elems : List Json)
  | obj (fields : List (String × Json))

/-- The left brace character, spelled via its code point. -/
def lbrace : Char := Char.ofNat 123

/-- The right brace character, spelled via its code point. -/
def rbrace : Char := Char.ofNat 125

/-- The double-quote character, spelled via its code point. -/
def dquote : Char := Char.ofNat 34

/-- Skip JSON whitespace. -/
def skipWs : List Char → List Char
  | c :: cs =>
    if c = ' ' ∨ c = '\n' ∨ c = '\t' ∨ c = '\r' then skipWs cs else c :: cs
  | [] => []

/-- Value of a hexadecimal digit character. -/
def hexVal (c : Char) : Option Nat :=
  if c.isDigit then some (c.toNat - 48)
  else if 'a' ≤ c ∧ c ≤ 'f' then some (c.toNat - 87)
  else if 'A' ≤ c ∧ c ≤ 'F' then some (c.toNat - 55)
  else none

/-- Translation of a single-character JSON string escape. -/
def escChar (c : Char) : Option Char :=
  if c = dquote then some dquote
  else if c = '\\' then some '\\'
  else if c = '/' then some '/'
  else if c = 'b' then some (Char.ofNat 8)
  else if c = 'f' then some (Char.ofNat 12)
  else if c = 'n' then some (Char.ofNat 10)
  else if c = 'r' then some (Char.ofNat 13)
  else if c = 't' then some (Char.ofNat 9)
  else none

/-- Parse the body of a JSON string after its opening quote, returning the
string contents and the remaining input. -/
def parseStringBody : List Char → Option (List Char × List Char)
  | [] => none
  | c :: rest =>
    if c = dquote then some ([], rest)
    else if c = '\\' then
      match rest with
      | 'u' :: h1 :: h2 :: h3 :: h4 :: rest2 =>
        match hexVal h1, hexVal h2, hexVal h3, hexVal h4 with
        | some a, some b, some c2, some d =>
          match parseStringBody rest2 with
          | some (cs, r) =>
            some (Char.ofNat (((a * 16 + b) * 16 + c2) * 16 + d) :: cs, r)
          | none => none
        | _, _, _, _ => none
      | c2 :: rest2 =>
        match escChar c2 with
        | some ec =>
          match parseStringBody rest2 with
          | some (cs, r) => some (ec :: cs, r)
          | none => none
        | none => none
      | [] => none
    else
      match parseStringBody rest with
      | some (cs, r) => some (c :: cs, r)
      | none => none

/-- Take a maximal run of decimal digits. -/
def takeDigits : List Char → List Char × List Char
  | [] => ([], [])
  | c :: rest =>
    if c.isDigit then
      let p := takeDigits rest
      (c :: p.1, p.2)
    else ([], c :: rest)

/-- Decimal number from a digit run. -/
def digitsToNat (ds : List Char) : Nat :=
  ds.foldl (fun acc c => acc * 10 + (c.toNat - 48)) 0

/-- Parse a JSON number (optional sign, integer part, optional fraction). -/
def parseNumber (cs : List Char) : Option (Json × List Char) :=
  let p : Bool × List Char :=
    match cs with
    | '-' :: rest => (true, rest)
    | _ => (false, cs)
  match takeDigits p.2 with
  | ([], _) => none
  | (ds, rest) =>
    let ipart : Int := Int.ofNat (digitsToNat ds)
    match rest with
    | '.' :: rest2 =>
      match takeDigits rest2 with
      | ([], _) => none
      | (fs, rest3) =>
        let mant : Int := ipart * (10 ^ fs.length) + Int.ofNat (digitsToNat fs)
        some (Json.num (if p.1 then -mant else mant) fs.length, rest3)
    | _ => some (Json.num (if p.1 then -ipart else ipart) 0, rest)

mutual

/-- Fuel-bounded recursive-descent parser for one JSON value. -/
def parseVal : Nat → List Char → Option (Json × List Char)
  | 0, _ => none
  | fuel + 1, cs =>
    match skipWs cs with
    | 'n' :: 'u' :: 'l' :: 'l' :: rest => some (Json.null, rest)
    | 't' :: 'r' :: 'u' :: 'e' :: rest => some (Json.bool true, rest)
    | 'f' :: 'a' :: 'l' :: 's' :: 'e' :: rest => some (Json.bool false, rest)
    | c :: rest =>
      if c = dquote then
        match parseStringBody rest with
        | some (cs2, r) => some (Json.str (String.mk cs2), r)
        | none => none
      else if c = '[' then
        match skipWs rest with
        | ']' :: r2 => some (Json.arr [], r2)
        | cs2 =>
          match parseElems fuel cs2 with
          | some (es, r2) => some (Json.arr es, r2)
          | none => none
      else if c = lbrace then
        match skipWs rest with
        | c2 :: r2 =>
          if c2 = rbrace then some (Json.obj [], r2)
          else
            match parseMembers fuel (c2 :: r2) with
            | some (fs, r3) => some (Json.obj fs, r3)
            | none => none
        | [] => none
      else if c = '-' ∨ c.isDigit then parseNumber (c :: rest)
      else none
    | [] => none

/-- Parse the comma-separated elements of a JSON array up to `]`. -/
def parseElems : Nat → List Char → Option (List Json × List Char)
  | 0, _ => none
  | fuel + 1, cs =>
    match parseVal fuel cs with
    | none => none
    | some (j, rest) =>
      match skipWs rest with
      | ',' :: r2 =>
        match parseElems fuel r2 with
        | some (es, r3) => some (j :: es, r3)
        | none => none
      | ']' :: r2 => some ([j], r2)
      | _ => none

/-- Parse the comma-separated members of a JSON object up to the closing
brace. -/
def parseMembers : Nat → List Char → Option (List (String × Json) × List Char)
  | 0, _ => none
  | fuel + 1, cs =>
    match skipWs cs with
    | c :: rest =>
      if c = dquote then
        match parseStringBody rest with
        | some (kcs, r2) =>
          match skipWs r2 with
          | ':' :: r3 =>
            match parseVal fuel r3 with
            | none => none
            | some (v, r4) =>
              match skipWs r4 with
              | ',' :: r5 =>
                match parseMembers fuel r5 with
                | some (fs, r6) => some ((String.mk kcs, v) :: fs, r6)
                | none => none
              | c2 :: r5 =>
                if c2 = rbrace then some ([(String.mk kcs, v)], r5) else none
              | [] => none
          | _ => none
        | none => none
      else none
    | [] => none

end

/-- Model of `JSON.parse`: parse one JSON value and require that only
whitespace remains; `none` stands for a thrown `SyntaxError`. -/
def jsonParse (s : String) : Option Json :=
  match parseVal (2 * s.length + 8) s.toList with
  | some (j, rest) => if (skipWs rest).isEmpty then some j else none
  | none => none

/-- The type tag zod reports for a JSON value in invalid-type messages. -/
def jsonTypeName : Json → String
  | Json.null => "null"
  | Json.bool _ => "boolean"
  | Json.num _ _ => "number"
  | Json.str _ => "string"
  | Json.arr _ => "array"
  | Json.obj _ => "object"

/-- Look up an object member; the last occurrence of a duplicated key wins,
as in a JavaScript object produced by `JSON.parse`. -/
def lookupField (fs : List (String × Json)) (k : String) : Option Json :=
  match fs with
  | [] => none
  | (k2, v) :: rest =>
    match lookupField rest k with
    | some r => some r
    | none => if k2 = k then some v else none

/-- Outcome of running a zod schema with `safeParse`: success, a structured
failure carrying the collected issues, or an exception escaping the call
(zod does not catch exceptions thrown inside a `transform`). -/
inductive ParseOutcome (α : Type) where
  | ok (value : α)
  | fail (issues : List Issue)
  | threw (message : String)
deriving DecidableEq, Repr

/-- Model of the `SyntaxError` thrown by `JSON.parse` on malformed input;
it propagates out of the zod `transform` uncaught. -/
def jsonSyntaxErrorMsg : String :=
  "SyntaxError: unexpected token while parsing JSON"

/-- The raw form input presented to the schema: each field is either absent
(`none`, the undefined of a missing form entry) or a submitted value. -/
structure RawInput where
  id : Option String
  name : Option String
  assetIds : Option (List String)
  description : Option String
  custodian : Option String
  startDate : Option String
  endDate : Option String

/-- The record produced by a successful parse: the output side of the
schemas in the source. Fields that a given schema variant does not populate
are `none`. -/
structure ParsedBooking where
  id : Option String
  name : String
  assetIds : Option (List String)
  description : Option String
  custodian : Custodian
  startDate : Option JSDate
  endDate : Option JSDate
deriving DecidableEq, Repr

/-- Combine two field results the way a zod object parse does: keep both
values on success, otherwise collect the issues of both sides in field
order. -/
def collectE {α β : Type} (a : Except (List Issue) α)
    (b : Except (List Issue) β) : Except (List Issue) (α × β) :=
  match a, b with
  | Except.ok x, Except.ok y => Except.ok (x, y)
  | Except.ok _, Except.error is2 => Except.error is2
  | Except.error is1, Except.ok _ => Except.error is1
  | Except.error is1, Except.error is2 => Except.error (is1 ++ is2)

/-- The object schema piped after `JSON.parse` in the custodian field:
`z.object(\x7b id: z.string(), name: z.string(),
userId: z.string().optional().nullable() \x7d)`, with issue paths rooted at
the custodian field. -/
def custodianPipe (j : Json) : Except (List Issue) Custodian :=
  match j with
  | Json.obj fs =>
    let idR : Except (List Issue) String :=
      match lookupField fs "id" with
      | none => Except.error [Issue.mk ["custodian", "id"] "Required"]
      | some (Json.str s) => Except.ok s
      | some v =>
        Except.error [Issue.mk ["custodian", "id"]
          ("Expected string, received " ++ jsonTypeName v)]
    let nameR : Except (List Issue) String :=
      match lookupField fs "name" with
      | none => Except.error [Issue.mk ["custodian", "name"] "Required"]
      | some (Json.str s) => Except.ok s
      | some v =>
        Except.error [Issue.mk ["custodian", "name"]
          ("Expected string, received " ++ jsonTypeName v)]
    let userR : Except (List Issue) (Option (Option String)) :=
      match lookupField fs "userId" with
      | none => Except.ok none
      | some Json.null => Except.ok (some none)
      | some (Json.str s) => Except.ok (some (some s))
      | some v =>
        Except.error [Issue.mk ["custodian", "userId"]
          ("Expected string, received " ++ jsonTypeName v)]
    match collectE idR (collectE nameR userR) with
    | Except.error is => Except.error is
    | Except.ok (i, n, u) => Except.ok (Custodian.mk i n u)
  | v =>
    Except.error [Issue.mk ["custodian"]
      ("Expected object, received " ++ jsonTypeName v)]

/-- The custodian field schema: `z.string()` (absent input is a "Required"
invalid-type issue), then the transform that rejects the empty string with
"Please select a custodian" and otherwise calls `JSON.parse` (whose
exception escapes), piped into `custodianPipe`. -/
def zCustodian (v : Option String) : ParseOutcome Custodian :=
  match v with
  | none => ParseOutcome.fail [Issue.mk ["custodian"] "Required"]
  | some s =>
    if s = "" then
      ParseOutcome.fail [Issue.mk ["custodian"] "Please select a custodian"]
    else
      match jsonParse s with
      | none => ParseOutcome.threw jsonSyntaxErrorMsg
      | some j =>
        match custodianPipe j with
        | Except.ok c => ParseOutcome.ok c
        | Except.error is => ParseOutcome.fail is

/-- The name field schema: `z.string().min(2, "Name is required")`. -/
def zName (v : Option String) : Except (List Issue) String :=
  match v with
  | none => Except.error [Issue.mk ["name"] "Required"]
  | some s =>
    if s.length < 2 then Except.error [Issue.mk ["name"] "Name is required"]
    else Except.ok s

/-- The id field schema: `z.string()`. -/
def zId (v : Option String) : Except (List Issue) String :=
  match v with
  | none => Except.error [Issue.mk ["id"] "Required"]
  | some s => Except.ok s

/-- An optional coerced date field of the base schema:
`z.coerce.date().optional()`; absent input passes, a present value must
parse as a date. -/
def zDateOpt (field : String) (v : Option String) :
    Except (List Issue) (Option JSDate) :=
  match v with
  | none => Except.ok none
  | some s =>
    match parseDateTimeLocal s with
    | none => Except.error [Issue.mk [field] "Invalid date"]
    | some d => Except.ok (some d)

/-- The "now" used by the future-date refinement: the timezone view when a
hints object is supplied (`hints?.timeZone`), the ambient clock otherwise. -/
def computeNow (env : Env) (hints : Option Hints) : Int :=
  match hints with
  | some h => env.tzView h.timeZone
  | none => env.ambientNow

/-- The `startDateSchema` of the full schemas: `z.coerce.date()` (absent or
unparseable input is an "Invalid date" issue) refined to be strictly after
the computed "now", with message "Start date must be in the future". -/
def zStartFull (env : Env) (hints : Option Hints) (v : Option String) :
    Except (List Issue) JSDate :=
  match v with
  | none => Except.error [Issue.mk ["startDate"] "Invalid date"]
  | some s =>
    match parseDateTimeLocal s with
    | none => Except.error [Issue.mk ["startDate"] "Invalid date"]
    | some d =>
      if computeNow env hints < toSecs d then Except.ok d
      else
        Except.error [Issue.mk ["startDate"] "Start date must be in the future"]

/-- The required end date of the full schemas: `z.coerce.date()`. -/
def zEndFull (v : Option String) : Except (List Issue) JSDate :=
  match v with
  | none => Except.error [Issue.mk ["endDate"] "Invalid date"]
  | some s =>
    match parseDateTimeLocal s with
    | none => Except.error [Issue.mk ["endDate"] "Invalid date"]
    | some d => Except.ok d

/-- Parse the non-custodian part of the base schema and merge in the already
computed custodian field result, preserving the field order of the zod shape
(name, assetIds, description, custodian, startDate, endDate). -/
def parseBaseRest (input : RawInput)
    (custE : Except (List Issue) Custodian) : ParseOutcome ParsedBooking :=
  match collectE (zName input.name)
      (collectE custE
        (collectE (zDateOpt "startDate" input.startDate)
          (zDateOpt "endDate" input.endDate))) with
  | Except.error issues => ParseOutcome.fail issues
  | Except.ok (nm, c, sd, ed) =>
    ParseOutcome.ok
      (ParsedBooking.mk none nm input.assetIds input.description c sd ed)

/-- Run the base schema (`baseSchema` in the source): name, optional
assetIds and description, custodian, and both dates optional and
unrefined. -/
def parseBaseV (input : RawInput) : ParseOutcome ParsedBooking :=
  match zCustodian input.custodian with
  | ParseOutcome.threw m => ParseOutcome.threw m
  | ParseOutcome.fail is => parseBaseRest input (Except.error is)
  | ParseOutcome.ok c => parseBaseRest input (Except.ok c)

/-- Parse the non-custodian part of a full schema (`fullSchema`, and with
`withId` also the id field of `fullSchemaWithId`) and merge in the custodian
result, preserving the field order of the zod shape. -/
def parseFullRest (withId : Bool) (env : Env) (hints : Option Hints)
    (input : RawInput) (custE : Except (List Issue) Custodian) :
    ParseOutcome ParsedBooking :=
  match collectE (zName input.name)
      (collectE custE
        (collectE (zStartFull env hints input.startDate)
          (collectE (zEndFull input.endDate)
            (if withId then Except.map some (zId input.id)
             else Except.ok none)))) with
  | Except.error issues => ParseOutcome.fail issues
  | Except.ok (nm, c, sd, ed, idv) =>
    ParseOutcome.ok
      (ParsedBooking.mk idv nm input.assetIds input.description c
        (some sd) (some ed))

/-- Run a full schema before its object-level refinement: the base fields
with required, refined start date and required end date, and the id field
when `withId` is set. -/
def parseFullV (withId : Bool) (env : Env) (hints : Option Hints)
    (input : RawInput) : ParseOutcome ParsedBooking :=
  match zCustodian input.custodian with
  | ParseOutcome.threw m => ParseOutcome.threw m
  | ParseOutcome.fail is => parseFullRest withId env hints input (Except.error is)
  | ParseOutcome.ok c => parseFullRest withId env hints input (Except.ok c)

/-- The object-level refinement predicate
`data.endDate && data.startDate && data.endDate > data.startDate` (a `Date`
object is always truthy, and zod only runs the refinement on a record whose
base parse succeeded). -/
def endAfterStart (p : ParsedBooking) : Bool :=
  match p.endDate, p.startDate with
  | some e, some s => decide (toSecs s < toSecs e)
  | _, _ => false

/-- Apply the end-after-start `.refine` of the full schemas: it runs only on
a successful base parse and attributes its issue to the endDate field. -/
def refineDates (o : ParseOutcome ParsedBooking) : ParseOutcome ParsedBooking :=
  match o with
  | ParseOutcome.ok p =>
    if endAfterStart p then ParseOutcome.ok p
    else
      ParseOutcome.fail
        [Issue.mk ["endDate"] "End date cannot be earlier than start date"]
  | x => x

/-- The three distinct schemas the selector can return: the refined full
schema of the "new" action, the refined full schema with the id field, and
the base schema. -/
inductive SchemaVariant where
  | fullRefined
  | fullWithId
  | base
deriving DecidableEq, Repr

/-- Run the schema denoted by a `SchemaVariant` on a raw input. -/
def parseVariant : SchemaVariant → Env → Option Hints → RawInput →
    ParseOutcome ParsedBooking
  | SchemaVariant.base, _, _, input => parseBaseV input
  | SchemaVariant.fullRefined, env, hints, input =>
    refineDates (parseFullV false env hints input)
  | SchemaVariant.fullWithId, env, hints, input =>
    refineDates (parseFullV true env hints input)

set_option linter.unusedVariables false in
/-- The validation rule selector `BookingFormSchema` of the source: switch
on the action, and for "save" on the status, throwing when "save" is
requested without a status. The cases RESERVED, ONGOING and OVERDUE return
the base schema explicitly; COMPLETED, CANCELLED and ARCHIVED fall through
the inner switch to the outer default branch, which also returns the base
schema. -/
def BookingFormSchema (hints : Option Hints) (action : String)
    (status : Option BookingStatus) : Except String SchemaVariant :=
  if action = "new" then Except.ok SchemaVariant.fullRefined
  else if action = "reserve" then Except.ok SchemaVariant.fullWithId
  else if action = "save" then
    match status with
    | none => Except.error "Status is required for save action."
    | some BookingStatus.DRAFT => Except.ok SchemaVariant.fullWithId
    | some BookingStatus.RESERVED => Except.ok SchemaVariant.base
    | some BookingStatus.ONGOING => Except.ok SchemaVariant.base
    | some BookingStatus.OVERDUE => Except.ok SchemaVariant.base
    | some BookingStatus.COMPLETED => Except.ok SchemaVariant.base
    | some BookingStatus.CANCELLED => Except.ok SchemaVariant.base
    | some BookingStatus.ARCHIVED => Except.ok SchemaVariant.base
  else Except.ok SchemaVariant.base

/-- Select the schema for an action and status and run it on a raw input;
the error side is the exception thrown for a "save" without status. -/
def runBookingFormSchema (env : Env) (hints : Option Hints) (action : String)
    (status : Option BookingStatus) (input : RawInput) :
    Except String (ParseOutcome ParsedBooking) :=
  Except.map (fun v => parseVariant v env hints input)
    (BookingFormSchema hints action status)

/-- Zero-padded two-digit decimal rendering. -/
def pad2 (n : Nat) : String :=
  String.mk [Char.ofNat (48 + n / 10 % 10), Char.ofNat (48 + n % 10)]

/-- Zero-padded four-digit decimal rendering. -/
def pad4 (n : Int) : String :=
  String.mk [Char.ofNat (48 + n.toNat / 1000 % 10),
    Char.ofNat (48 + n.toNat / 100 % 10),
    Char.ofNat (48 + n.toNat / 10 % 10), Char.ofNat (48 + n.toNat % 10)]

/-- Modelled from the spec: `dateForDateTimeInputValue` from
`~/utils/date-fns` is not part of the sources under verification; per the
spec it renders a date in the textual representation expected by a
`datetime-local` input control at second precision,
`YYYY-MM-DDTHH:MM:SS`. -/
def dateForDateTimeInputValue (d : JSDate) : String :=
  pad4 d.year ++ "-" ++ pad2 d.month ++ "-" ++ pad2 d.day ++ "T"
    ++ pad2 d.hour ++ ":" ++ pad2 d.minute ++ ":" ++ pad2 d.second

/-- `substring(0, length - 3)`: drop the last three characters (the seconds
component ":SS") of the rendered date-time string. -/
def dropLast3 (s : String) : String :=
  String.mk (s.toList.take (s.toList.length - 3))

/-- The derived date adjuster: the start-date `onChange` handler of the
form. It parses the new start value, and when the booking is new, an end
date value is present (a non-empty string is truthy) and the new start is
strictly after the current end, it replaces the end date with 18:00 on the
new start day (`setHours(18, 0, 0)`), rendered through
`dateForDateTimeInputValue` with the seconds component removed; in every
other case the end-date state is left unchanged. A comparison involving an
unparseable date is false, as with an Invalid Date in JavaScript. -/
def onStartDateChange (isNewBooking : Bool) (endDate : Option String)
    (newStartValue : String) : Option String :=
  match endDate with
  | none => none
  | some e =>
    if isNewBooking && !(e == "") then
      match parseDateTimeLocal newStartValue, parseDateTimeLocal e with
      | some ns, some ec =>
        if toSecs ec < toSecs ns then
          some (dropLast3 (dateForDateTimeInputValue
            (JSDate.mk ns.year ns.month ns.day 18 0 0)))
        else some e
      | _, _ => some e
    else some e

/-! Concrete values shared by the witness and counterexample theorems. -/

/-- A fixed environment whose clock is at the epoch, so that the 2024 dates
used in the tests are in the future. -/
def env0 : Env := Env.mk 0 (fun _ => 0)

/-- A fixed environment whose clock is far past the 2024 dates used in the
tests. -/
def envLate : Env := Env.mk 9999999999 (fun _ => 9999999999)

/-- A well-formed custodian selection, the JSON rendering of
team member tm_1 named Jane Doe. -/
def custodianJSON : String := "\x7b\"id\":\"tm_1\",\"name\":\"Jane Doe\"\x7d"

/-- The parsed form of `custodianJSON`. -/
def custodianJane : Custodian := Custodian.mk "tm_1" "Jane Doe" none

/-! Helper lemmas about issue collection. -/

/-- If the right side of a `collectE` is a failure, the combination fails
and keeps the right side's issues. -/
theorem collectE_err_right {α β : Type} (a : Except (List Issue) α)
    {b : Except (List Issue) β} {is : List Issue}
    (hb : b = Except.error is) {i : Issue} (hi : i ∈ is) :
    ∃ js, collectE a b = Except.error js ∧ i ∈ js := by
  subst hb
  cases a with
  | ok x => exact ⟨is, rfl, hi⟩
  | error is1 => exact ⟨is1 ++ is, rfl, List.mem_append_right is1 hi⟩

/-- If the left side of a `collectE` is a failure, the combination fails
and keeps the left side's issues. -/
theorem collectE_err_left {α β : Type} {a : Except (List Issue) α}
    {is : List Issue} (ha : a = Except.error is) {i : Issue} (hi : i ∈ is)
    (b : Except (List Issue) β) :
    ∃ js, collectE a b = Except.error js ∧ i ∈ js := by
  subst ha
  cases b with
  | ok y => exact ⟨is, rfl, hi⟩
  | error is2 => exact ⟨is ++ is2, rfl, List.mem_append_left is2 hi⟩

/-- A failing custodian field makes the base schema fail, keeping the
custodian issues. -/
theorem parseBaseRest_custFail (input : RawInput) (is : List Issue)
    {i : Issue} (hi : i ∈ is) :
    ∃ js, parseBaseRest input (Except.error is) = ParseOutcome.fail js
      ∧ i ∈ js := by
  obtain ⟨j1, h1, m1⟩ := collectE_err_left rfl hi
    (collectE (zDateOpt "startDate" input.startDate)
      (zDateOpt "endDate" input.endDate))
  obtain ⟨j2, h2, m2⟩ := collectE_err_right (zName input.name) h1 m1
  refine ⟨j2, ?_, m2⟩
  unfold parseBaseRest
  rw [h2]

/-- A failing name field makes the base schema fail, keeping the name
issues. -/
theorem parseBaseRest_nameFail (input : RawInput)
    (custE : Except (List Issue) Custodian) {is : List Issue}
    (h : zName input.name = Except.error is) {i : Issue} (hi : i ∈ is) :
    ∃ js, parseBaseRest input custE = ParseOutcome.fail js ∧ i ∈ js := by
  obtain ⟨js, hjs, m⟩ := collectE_err_left h hi
    (collectE custE
      (collectE (zDateOpt "startDate" input.startDate)
        (zDateOpt "endDate" input.endDate)))
  refine ⟨js, ?_, m⟩
  unfold parseBaseRest
  rw [hjs]

/-- A failing custodian field makes a full schema fail, keeping the
custodian issues. -/
theorem parseFullRest_custFail (withId : Bool) (env : Env)
    (hints : Option Hints) (input : RawInput) (is : List Issue)
    {i : Issue} (hi : i ∈ is) :
    ∃ js, parseFullRest withId env hints input (Except.error is)
      = ParseOutcome.fail js ∧ i ∈ js := by
  obtain ⟨j1, h1, m1⟩ := collectE_err_left rfl hi
    (collectE (zStartFull env hints input.startDate)
      (collectE (zEndFull input.endDate)
        (if withId then Except.map some (zId input.id)
         else Except.ok none)))
  obtain ⟨j2, h2, m2⟩ := collectE_err_right (zName input.name) h1 m1
  refine ⟨j2, ?_, m2⟩
  unfold parseFullRest
  rw [h2]

/-- A failing start-date field makes a full schema fail, keeping the
start-date issues, whatever the custodian result was. -/
theorem parseFullRest_startFail (withId : Bool) (env : Env)
    (hints : Option Hints) (input : RawInput)
    (custE : Except (List Issue) Custodian) {is : List Issue}
    (h : zStartFull env hints input.startDate = Except.error is)
    {i : Issue} (hi : i ∈ is) :
    ∃ js, parseFullRest withId env hints input custE
      = ParseOutcome.fail js ∧ i ∈ js := by
  obtain ⟨j1, h1, m1⟩ := collectE_err_left h hi
    (collectE (zEndFull input.endDate)
      (if withId then Except.map some (zId input.id) else Except.ok none))
  obtain ⟨j2, h2, m2⟩ := collectE_err_right custE h1 m1
  obtain ⟨j3, h3, m3⟩ := collectE_err_right (zName input.name) h2 m2
  refine ⟨j3, ?_, m3⟩
  unfold parseFullRest
  rw [h3]

/-- A failing id field makes the full-with-id schema fail, keeping the id
issues, whatever the custodian result was. -/
theorem parseFullRest_idFail (env : Env) (hints : Option Hints)
    (input : RawInput) (custE : Except (List Issue) Custodian)
    {is : List Issue} (h : zId input.id = Except.error is)
    {i : Issue} (hi : i ∈ is) :
    ∃ js, parseFullRest true env hints input custE
      = ParseOutcome.fail js ∧ i ∈ js := by
  have hmap : (if true then Except.map some (zId input.id)
      else Except.ok (none : Option String)) = Except.error is := by
    simp [h, Except.map]
  obtain ⟨j1, h1, m1⟩ := collectE_err_right (zEndFull input.endDate) hmap hi
  obtain ⟨j2, h2, m2⟩ :=
    collectE_err_right (zStartFull env hints input.startDate) h1 m1
  obtain ⟨j3, h3, m3⟩ := collectE_err_right custE h2 m2
  obtain ⟨j4, h4, m4⟩ := collectE_err_right (zName input.name) h3 m3
  refine ⟨j4, ?_, m4⟩
  unfold parseFullRest
  rw [h4]

/-- When all fields of a full schema parse, the record is assembled from
the parsed field values. -/
theorem parseFullRest_ok (withId : Bool) (env : Env) (hints : Option Hints)
    (input : RawInput) {c : Custodian} {nm : String} {sd ed : JSDate}
    {idv : Option String}
    (hn : zName input.name = Except.ok nm)
    (hs : zStartFull env hints input.startDate = Except.ok sd)
    (he : zEndFull input.endDate = Except.ok ed)
    (hid : (if withId then Except.map some (zId input.id)
      else Except.ok none) = Except.ok idv) :
    parseFullRest withId env hints input (Except.ok c)
      = ParseOutcome.ok (ParsedBooking.mk idv nm input.assetIds
          input.description c (some sd) (some ed)) := by
  unfold parseFullRest
  rw [hn, hs, he, hid]
  rfl

/-! The claim theorems. -/

/-- Claim C3: calling the validation rule selector with action "save" and
an absent status aborts abnormally with the error "Status is required for
save action.", for every hints value; it never returns a schema, in
particular it never falls back to the base schema. -/
theorem c3_save_without_status_throws :
    ∀ hints : Option Hints,
      BookingFormSchema hints "save" none
        = Except.error "Status is required for save action." := by
  intro hints
  rfl

/-- Claim C5: the schema the selector returns for action "save" with status
DRAFT is the same schema it returns for action "reserve" (the full schema
with the id field and both date refinements), so running the two selections
on any input yields identical outcomes, with the same field errors. -/
theorem c5_save_draft_equals_reserve :
    ∀ (hints : Option Hints) (status : Option BookingStatus) (env : Env)
      (input : RawInput),
      BookingFormSchema hints "save" (some BookingStatus.DRAFT)
          = Except.ok SchemaVariant.fullWithId
        ∧ BookingFormSchema hints "reserve" status
          = Except.ok SchemaVariant.fullWithId
        ∧ runBookingFormSchema env hints "save" (some BookingStatus.DRAFT)
            input
          = runBookingFormSchema env hints "reserve" status input := by
  intro hints status env input
  exact ⟨rfl, rfl, rfl⟩

/-- Claim C4: for action "save" with status COMPLETED, CANCELLED or
ARCHIVED the selector falls through to the default branch and returns the
base schema; the base schema has no future-date refinement (its outcome is
independent of the clock environment and hints) and no end-after-start
refinement (when each field parses, the record is accepted whatever the
order of the two dates). -/
theorem c4_save_terminal_fallthrough_base :
    (∀ hints : Option Hints,
      BookingFormSchema hints "save" (some BookingStatus.COMPLETED)
          = Except.ok SchemaVariant.base
        ∧ BookingFormSchema hints "save" (some BookingStatus.CANCELLED)
          = Except.ok SchemaVariant.base
        ∧ BookingFormSchema hints "save" (some BookingStatus.ARCHIVED)
          = Except.ok SchemaVariant.base)
    ∧ (∀ (env env2 : Env) (hints hints2 : Option Hints) (input : RawInput),
        parseVariant SchemaVariant.base env hints input
          = parseVariant SchemaVariant.base env2 hints2 input)
    ∧ (∀ (env : Env) (hints : Option Hints) (input : RawInput) (nm : String)
        (c : Custodian) (sd ed : Option JSDate),
        zName input.name = Except.ok nm →
        zCustodian input.custodian = ParseOutcome.ok c →
        zDateOpt "startDate" input.startDate = Except.ok sd →
        zDateOpt "endDate" input.endDate = Except.ok ed →
        parseVariant SchemaVariant.base env hints input
          = ParseOutcome.ok (ParsedBooking.mk none nm input.assetIds
              input.description c sd ed)) := by
  refine ⟨fun hints => ⟨rfl, rfl, rfl⟩, fun _ _ _ _ _ => rfl, ?_⟩
  intro env hints input nm c sd ed hn hc hs he
  show parseBaseV input = _
  unfold parseBaseV
  rw [hc]
  unfold parseBaseRest
  rw [hn, hs, he]
  rfl

/-- Witness for claim C4: a concrete record whose end date lies before its
start date is accepted by the base schema (no date refinement applies). -/
theorem c4_witness :
    parseVariant SchemaVariant.base env0 none
      (RawInput.mk none (some "My booking") none none (some custodianJSON)
        (some "2024-01-12T09:00") (some "2024-01-10T10:00"))
      = ParseOutcome.ok (ParsedBooking.mk none "My booking" none none
          custodianJane (some (JSDate.mk 2024 1 12 9 0 0))
          (some (JSDate.mk 2024 1 10 10 0 0))) :=
  c4_save_terminal_fallthrough_base.2.2 env0 none
    (RawInput.mk none (some "My booking") none none (some custodianJSON)
      (some "2024-01-12T09:00") (some "2024-01-10T10:00"))
    "My booking" custodianJane (some (JSDate.mk 2024 1 12 9 0 0))
    (some (JSDate.mk 2024 1 10 10 0 0)) rfl rfl rfl rfl

/-- Claim C1 counterexample: for action "save" with status RESERVED the
selector returns the base schema, and a record with only the name and
description fields populated (custodian, dates and id all absent) does not
pass validation: it fails with a "Required" issue on the custodian field,
because the base schema requires the custodian. -/
theorem c1_counterexample :
    BookingFormSchema none "save" (some BookingStatus.RESERVED)
        = Except.ok SchemaVariant.base
      ∧ parseVariant SchemaVariant.base env0 none
          (RawInput.mk none (some "My booking") none (some "a note") none
            none none)
        = ParseOutcome.fail [Issue.mk ["custodian"] "Required"] :=
  ⟨rfl, rfl⟩

/-- Claim C1 (amended): for the schema selected by action "save" with
status RESERVED, ONGOING or OVERDUE (the base schema), a record with name,
description and a valid custodian populated and no dates and no id passes
validation, and a record whose name has length 1 fails validation. -/
theorem c1_amended_save_name_description_custodian :
    ∀ status : BookingStatus,
      (status = BookingStatus.RESERVED ∨ status = BookingStatus.ONGOING
        ∨ status = BookingStatus.OVERDUE) →
      ∀ (hints : Option Hints) (env : Env),
        BookingFormSchema hints "save" (some status)
            = Except.ok SchemaVariant.base
          ∧ (∀ (input : RawInput) (nm : String) (c : Custodian),
              input.name = some nm → 2 ≤ nm.length →
              zCustodian input.custodian = ParseOutcome.ok c →
              input.startDate = none → input.endDate = none →
              parseVariant SchemaVariant.base env hints input
                = ParseOutcome.ok (ParsedBooking.mk none nm input.assetIds
                    input.description c none none))
          ∧ (∀ (input : RawInput) (nm : String),
              input.name = some nm → nm.length = 1 →
              ∀ p, parseVariant SchemaVariant.base env hints input
                ≠ ParseOutcome.ok p) := by
  intro status hst hints env
  refine ⟨?_, ?_, ?_⟩
  · rcases hst with h | h | h <;> subst h <;> rfl
  · intro input nm c hname hlen hc hsd hed
    show parseBaseV input = _
    unfold parseBaseV
    rw [hc]
    unfold parseBaseRest
    rw [hname, hsd, hed]
    have hzn : zName (some nm) = Except.ok nm := by
      simp only [zName]
      rw [if_neg (by omega)]
    rw [hzn]
    rfl
  · intro input nm hname hlen1 p
    have hzn : zName input.name
        = Except.error [Issue.mk ["name"] "Name is required"] := by
      rw [hname]
      simp only [zName]
      rw [if_pos (by omega)]
    show parseBaseV input ≠ ParseOutcome.ok p
    unfold parseBaseV
    cases hzc : zCustodian input.custodian with
    | threw m => simp
    | fail is =>
      obtain ⟨js, hjs, _⟩ :=
        parseBaseRest_nameFail input (Except.error is) hzn
          (List.mem_singleton_self _)
      show parseBaseRest input (Except.error is) ≠ ParseOutcome.ok p
      rw [hjs]
      simp
    | ok c =>
      obtain ⟨js, hjs, _⟩ :=
        parseBaseRest_nameFail input (Except.ok c) hzn
          (List.mem_singleton_self _)
      show parseBaseRest input (Except.ok c) ≠ ParseOutcome.ok p
      rw [hjs]
      simp

/-- Witness for claim C1 (amended), at status RESERVED: a concrete record
with name, description and custodian but no dates and no id is accepted,
and a concrete record with the one-character name "X" is rejected. -/
theorem c1_witness :
    BookingFormSchema none "save" (some BookingStatus.RESERVED)
        = Except.ok SchemaVariant.base
      ∧ parseVariant SchemaVariant.base env0 none
          (RawInput.mk none (some "My booking") none (some "a note")
            (some custodianJSON) none none)
        = ParseOutcome.ok (ParsedBooking.mk none "My booking" none
            (some "a note") custodianJane none none)
      ∧ parseVariant SchemaVariant.base env0 none
          (RawInput.mk none (some "X") none (some "a note")
            (some custodianJSON) none none)
        ≠ ParseOutcome.ok (ParsedBooking.mk none "X" none (some "a note")
            custodianJane none none) := by
  have h := c1_amended_save_name_description_custodian BookingStatus.RESERVED
    (Or.inl rfl) none env0
  exact ⟨h.1,
    h.2.1 (RawInput.mk none (some "My booking") none (some "a note")
        (some custodianJSON) none none) "My booking" custodianJane rfl
      (by decide) rfl rfl rfl,
    h.2.2 (RawInput.mk none (some "X") none (some "a note")
        (some custodianJSON) none none) "X" rfl rfl
      (ParsedBooking.mk none "X" none (some "a note") custodianJane none
        none)⟩

/-- Claim C2 counterexample: under the base schema a non-empty custodian
input that is not valid JSON is not collected as a field-level error: the
`JSON.parse` exception escapes the validation call (zod does not catch
exceptions thrown inside a transform), so validation throws. -/
theorem c2_counterexample :
    parseVariant SchemaVariant.base env0 none
      (RawInput.mk none (some "My booking") none none (some "not-json")
        none none)
      = ParseOutcome.threw jsonSyntaxErrorMsg :=
  rfl

/-- Claim C2 (amended): for every schema the selector can return, a
non-empty custodian input that is not valid JSON causes the validation call
to throw the `JSON.parse` exception instead of producing a field-level
error mapping. -/
theorem c2_amended_malformed_custodian_throws :
    ∀ (v : SchemaVariant) (env : Env) (hints : Option Hints)
      (input : RawInput) (s : String),
      input.custodian = some s → s ≠ "" → jsonParse s = none →
      parseVariant v env hints input
        = ParseOutcome.threw jsonSyntaxErrorMsg := by
  intro v env hints input s hc hne hbad
  have hz : zCustodian input.custodian
      = ParseOutcome.threw jsonSyntaxErrorMsg := by
    rw [hc]
    simp only [zCustodian]
    rw [if_neg hne, hbad]
  cases v with
  | base =>
    show parseBaseV input = _
    unfold parseBaseV
    rw [hz]
  | fullRefined =>
    show refineDates (parseFullV false env hints input) = _
    unfold parseFullV
    rw [hz]
    rfl
  | fullWithId =>
    show refineDates (parseFullV true env hints input) = _
    unfold parseFullV
    rw [hz]
    rfl

/-- Witness for claim C2 (amended): the concrete custodian input "not-json"
makes validation under the full reserve schema throw. -/
theorem c2_witness :
    parseVariant SchemaVariant.fullWithId env0 none
      (RawInput.mk (some "bk_1") (some "My booking") none none
        (some "not-json") (some "2024-01-12T09:00")
        (some "2024-01-12T18:00"))
      = ParseOutcome.threw jsonSyntaxErrorMsg :=
  c2_amended_malformed_custodian_throws SchemaVariant.fullWithId env0 none
    (RawInput.mk (some "bk_1") (some "My booking") none none
      (some "not-json") (some "2024-01-12T09:00")
      (some "2024-01-12T18:00"))
    "not-json" rfl (by decide) rfl

/-- Claim C6: in the schema variants that validate both dates together (the
refined full schema of "new" and the full schema with id of "reserve" and
"save"/DRAFT), an input whose fields all parse but whose end date is not
strictly after its start date fails validation with exactly the issue "End
date cannot be earlier than start date" attributed to the endDate field. -/
theorem c6_end_not_after_start_fails :
    ∀ (withId : Bool) (env : Env) (hints : Option Hints) (input : RawInput)
      (p : ParsedBooking) (sd ed : JSDate),
      parseFullV withId env hints input = ParseOutcome.ok p →
      p.startDate = some sd → p.endDate = some ed →
      toSecs ed ≤ toSecs sd →
      parseVariant
          (if withId then SchemaVariant.fullWithId
           else SchemaVariant.fullRefined) env hints input
        = ParseOutcome.fail
            [Issue.mk ["endDate"] "End date cannot be earlier than start date"] := by
  intro withId env hints input p sd ed hok hsd hed hle
  have href : refineDates (parseFullV withId env hints input)
      = ParseOutcome.fail
          [Issue.mk ["endDate"] "End date cannot be earlier than start date"] := by
    rw [hok]
    simp only [refineDates, endAfterStart, hsd, hed]
    rw [if_neg (by simp; omega)]
  cases withId with
  | false => exact href
  | true => exact href

/-- Witness for claim C6: a concrete otherwise-valid record whose end date
is two days before its start date is rejected by the "new" schema with the
end-date ordering issue. -/
theorem c6_witness :
    parseVariant SchemaVariant.fullRefined env0 none
      (RawInput.mk none (some "My booking") none none (some custodianJSON)
        (some "2024-01-12T09:00") (some "2024-01-10T10:00"))
      = ParseOutcome.fail
          [Issue.mk ["endDate"] "End date cannot be earlier than start date"] :=
  c6_end_not_after_start_fails false env0 none
    (RawInput.mk none (some "My booking") none none (some custodianJSON)
      (some "2024-01-12T09:00") (some "2024-01-10T10:00"))
    (ParsedBooking.mk none "My booking" none none custodianJane
      (some (JSDate.mk 2024 1 12 9 0 0)) (some (JSDate.mk 2024 1 10 10 0 0)))
    (JSDate.mk 2024 1 12 9 0 0) (JSDate.mk 2024 1 10 10 0 0)
    rfl rfl rfl (by decide)

/-- Claim C7: action "new" selects the refined full schema; the "now" of
its future-date refinement is the timezone view when a hints value is
present and the ambient clock otherwise; and any input whose start date
parses to a date not strictly after that "now" fails validation with the
issue "Start date must be in the future" on the startDate field (provided
the custodian transform does not throw first, since a thrown `JSON.parse`
exception aborts validation before the date checks). -/
theorem c7_new_start_not_future_fails :
    (∀ (hints : Option Hints) (status : Option BookingStatus),
      BookingFormSchema hints "new" status = Except.ok SchemaVariant.fullRefined)
    ∧ (∀ (env : Env) (h : Hints),
        computeNow env (some h) = env.tzView h.timeZone)
    ∧ (∀ env : Env, computeNow env none = env.ambientNow)
    ∧ (∀ (env : Env) (hints : Option Hints) (input : RawInput) (s : String)
        (d : JSDate),
        input.startDate = some s →
        parseDateTimeLocal s = some d →
        toSecs d ≤ computeNow env hints →
        (∀ m, zCustodian input.custodian ≠ ParseOutcome.threw m) →
        ∃ issues,
          parseVariant SchemaVariant.fullRefined env hints input
              = ParseOutcome.fail issues
            ∧ Issue.mk ["startDate"] "Start date must be in the future"
              ∈ issues) := by
  refine ⟨fun _ _ => rfl, fun _ _ => rfl, fun _ => rfl, ?_⟩
  intro env hints input s d hsd hparse hle hnothrow
  have hstart : zStartFull env hints input.startDate
      = Except.error
          [Issue.mk ["startDate"] "Start date must be in the future"] := by
    rw [hsd]
    simp only [zStartFull, hparse]
    rw [if_neg (by omega)]
  show ∃ issues,
    refineDates (parseFullV false env hints input) = ParseOutcome.fail issues
      ∧ _ ∈ issues
  unfold parseFullV
  cases hzc : zCustodian input.custodian with
  | threw m => exact absurd hzc (hnothrow m)
  | fail is =>
    obtain ⟨js, hjs, hm⟩ := parseFullRest_startFail false env hints input
      (Except.error is) hstart (List.mem_singleton_self _)
    refine ⟨js, ?_, hm⟩
    show refineDates (parseFullRest false env hints input (Except.error is))
      = ParseOutcome.fail js
    rw [hjs]
    rfl
  | ok c =>
    obtain ⟨js, hjs, hm⟩ := parseFullRest_startFail false env hints input
      (Except.ok c) hstart (List.mem_singleton_self _)
    refine ⟨js, ?_, hm⟩
    show refineDates (parseFullRest false env hints input (Except.ok c))
      = ParseOutcome.fail js
    rw [hjs]
    rfl

/-- Witness for claim C7: under a clock far past 2024, a concrete
otherwise-valid record with start date 2024-01-12T09:00 is rejected by the
"new" schema with the future-date issue on the startDate field. -/
theorem c7_witness :
    ∃ issues,
      parseVariant SchemaVariant.fullRefined envLate none
          (RawInput.mk none (some "My booking") none none
            (some custodianJSON) (some "2024-01-12T09:00")
            (some "2024-01-12T18:00"))
          = ParseOutcome.fail issues
        ∧ Issue.mk ["startDate"] "Start date must be in the future" ∈ issues :=
  c7_new_start_not_future_fails.2.2.2 envLate none
    (RawInput.mk none (some "My booking") none none (some custodianJSON)
      (some "2024-01-12T09:00") (some "2024-01-12T18:00"))
    "2024-01-12T09:00" (JSDate.mk 2024 1 12 9 0 0) rfl rfl (by decide)
    (by
      intro m hm
      rw [show zCustodian (some custodianJSON) = ParseOutcome.ok custodianJane
        from rfl] at hm
      exact ParseOutcome.noConfusion hm)

/-- Claim C9: action "reserve" selects the full schema with the id field;
under that schema every input missing the id field is rejected (validation
never succeeds), and an input whose name, custodian, start date (future)
and end date (after the start) all parse and whose id is present succeeds
with the parsed record. -/
theorem c9_reserve_requires_id :
    (∀ (hints : Option Hints) (status : Option BookingStatus),
      BookingFormSchema hints "reserve" status
        = Except.ok SchemaVariant.fullWithId)
    ∧ (∀ (env : Env) (hints : Option Hints) (input : RawInput),
        input.id = none →
        ∀ p, parseVariant SchemaVariant.fullWithId env hints input
          ≠ ParseOutcome.ok p)
    ∧ (∀ (env : Env) (hints : Option Hints) (input : RawInput)
        (nm idv : String) (c : Custodian) (sd ed : JSDate),
        zName input.name = Except.ok nm →
        zCustodian input.custodian = ParseOutcome.ok c →
        zStartFull env hints input.startDate = Except.ok sd →
        zEndFull input.endDate = Except.ok ed →
        input.id = some idv →
        toSecs sd < toSecs ed →
        parseVariant SchemaVariant.fullWithId env hints input
          = ParseOutcome.ok (ParsedBooking.mk (some idv) nm input.assetIds
              input.description c (some sd) (some ed))) := by
  refine ⟨fun _ _ => rfl, ?_, ?_⟩
  · intro env hints input hid p
    have hzid : zId input.id = Except.error [Issue.mk ["id"] "Required"] := by
      rw [hid]
      rfl
    show refineDates (parseFullV true env hints input) ≠ ParseOutcome.ok p
    unfold parseFullV
    cases hzc : zCustodian input.custodian with
    | threw m => simp [refineDates]
    | fail is =>
      obtain ⟨js, hjs, _⟩ := parseFullRest_idFail env hints input
        (Except.error is) hzid (List.mem_singleton_self _)
      show refineDates (parseFullRest true env hints input (Except.error is))
        ≠ ParseOutcome.ok p
      rw [hjs]
      simp [refineDates]
    | ok c =>
      obtain ⟨js, hjs, _⟩ := parseFullRest_idFail env hints input
        (Except.ok c) hzid (List.mem_singleton_self _)
      show refineDates (parseFullRest true env hints input (Except.ok c))
        ≠ ParseOutcome.ok p
      rw [hjs]
      simp [refineDates]
  · intro env hints input nm idv c sd ed hn hc hs he hid hlt
    have hzid : (if true then Except.map some (zId input.id)
        else Except.ok (none : Option String)) = Except.ok (some idv) := by
      rw [hid]
      rfl
    have hrest := @parseFullRest_ok true env hints input c nm sd ed
      (some idv) hn hs he hzid
    show refineDates (parseFullV true env hints input) = _
    unfold parseFullV
    rw [hc]
    show refineDates (parseFullRest true env hints input (Except.ok c)) = _
    rw [hrest]
    simp only [refineDates, endAfterStart]
    rw [if_pos (by simp; omega)]

/-- Witness for claim C9: a concrete complete record with id "bk_1" passes
the reserve schema, and the same record with the id absent is rejected. -/
theorem c9_witness :
    parseVariant SchemaVariant.fullWithId env0 none
        (RawInput.mk (some "bk_1") (some "My booking") none none
          (some custodianJSON) (some "2024-01-12T09:00")
          (some "2024-01-12T18:00"))
        = ParseOutcome.ok (ParsedBooking.mk (some "bk_1") "My booking" none
            none custodianJane (some (JSDate.mk 2024 1 12 9 0 0))
            (some (JSDate.mk 2024 1 12 18 0 0)))
      ∧ parseVariant SchemaVariant.fullWithId env0 none
          (RawInput.mk none (some "My booking") none none
            (some custodianJSON) (some "2024-01-12T09:00")
            (some "2024-01-12T18:00"))
          ≠ ParseOutcome.ok (ParsedBooking.mk none "My booking" none none
              custodianJane (some (JSDate.mk 2024 1 12 9 0 0))
              (some (JSDate.mk 2024 1 12 18 0 0))) :=
  ⟨c9_reserve_requires_id.2.2 env0 none
      (RawInput.mk (some "bk_1") (some "My booking") none none
        (some custodianJSON) (some "2024-01-12T09:00")
        (some "2024-01-12T18:00"))
      "My booking" "bk_1" custodianJane (JSDate.mk 2024 1 12 9 0 0)
      (JSDate.mk 2024 1 12 18 0 0) rfl rfl rfl rfl rfl (by decide),
    c9_reserve_requires_id.2.1 env0 none
      (RawInput.mk none (some "My booking") none none (some custodianJSON)
        (some "2024-01-12T09:00") (some "2024-01-12T18:00"))
      rfl
      (ParsedBooking.mk none "My booking" none none custodianJane
        (some (JSDate.mk 2024 1 12 9 0 0))
        (some (JSDate.mk 2024 1 12 18 0 0)))⟩

/-- Claim C10: every schema the selector can return requires the custodian
field: an empty-string custodian input always fails validation with the
issue "Please select a custodian" on the custodian field, and an absent
custodian input never validates successfully (no variant makes the
custodian optional). -/
theorem c10_custodian_always_required :
    ∀ (v : SchemaVariant) (env : Env) (hints : Option Hints)
      (input : RawInput),
      (input.custodian = some "" →
        ∃ issues,
          parseVariant v env hints input = ParseOutcome.fail issues
            ∧ Issue.mk ["custodian"] "Please select a custodian" ∈ issues)
      ∧ (input.custodian = none →
        ∀ p, parseVariant v env hints input ≠ ParseOutcome.ok p) := by
  intro v env hints input
  constructor
  · intro hc
    have hzc : zCustodian input.custodian
        = ParseOutcome.fail
            [Issue.mk ["custodian"] "Please select a custodian"] := by
      rw [hc]
      rfl
    cases v with
    | base =>
      obtain ⟨js, hjs, hm⟩ := parseBaseRest_custFail input
        [Issue.mk ["custodian"] "Please select a custodian"]
        (List.mem_singleton_self _)
      refine ⟨js, ?_, hm⟩
      show parseBaseV input = ParseOutcome.fail js
      unfold parseBaseV
      rw [hzc]
      exact hjs
    | fullRefined =>
      obtain ⟨js, hjs, hm⟩ := parseFullRest_custFail false env hints input
        [Issue.mk ["custodian"] "Please select a custodian"]
        (List.mem_singleton_self _)
      refine ⟨js, ?_, hm⟩
      show refineDates (parseFullV false env hints input)
        = ParseOutcome.fail js
      unfold parseFullV
      rw [hzc]
      show refineDates (parseFullRest false env hints input
        (Except.error [Issue.mk ["custodian"] "Please select a custodian"]))
        = ParseOutcome.fail js
      rw [hjs]
      rfl
    | fullWithId =>
      obtain ⟨js, hjs, hm⟩ := parseFullRest_custFail true env hints input
        [Issue.mk ["custodian"] "Please select a custodian"]
        (List.mem_singleton_self _)
      refine ⟨js, ?_, hm⟩
      show refineDates (parseFullV true env hints input)
        = ParseOutcome.fail js
      unfold parseFullV
      rw [hzc]
      show refineDates (parseFullRest true env hints input
        (Except.error [Issue.mk ["custodian"] "Please select a custodian"]))
        = ParseOutcome.fail js
      rw [hjs]
      rfl
  · intro hc p
    have hzc : zCustodian input.custodian
        = ParseOutcome.fail [Issue.mk ["custodian"] "Required"] := by
      rw [hc]
      rfl
    cases v with
    | base =>
      obtain ⟨js, hjs, _⟩ := parseBaseRest_custFail input
        [Issue.mk ["custodian"] "Required"]
        (List.mem_singleton_self _)
      show parseBaseV input ≠ ParseOutcome.ok p
      unfold parseBaseV
      rw [hzc]
      show parseBaseRest input
        (Except.error [Issue.mk ["custodian"] "Required"])
        ≠ ParseOutcome.ok p
      rw [hjs]
      simp
    | fullRefined =>
      obtain ⟨js, hjs, _⟩ := parseFullRest_custFail false env hints input
        [Issue.mk ["custodian"] "Required"]
        (List.mem_singleton_self _)
      show refineDates (parseFullV false env hints input)
        ≠ ParseOutcome.ok p
      unfold parseFullV
      rw [hzc]
      show refineDates (parseFullRest false env hints input
        (Except.error [Issue.mk ["custodian"] "Required"]))
        ≠ ParseOutcome.ok p
      rw [hjs]
      simp [refineDates]
    | fullWithId =>
      obtain ⟨js, hjs, _⟩ := parseFullRest_custFail true env hints input
        [Issue.mk ["custodian"] "Required"]
        (List.mem_singleton_self _)
      show refineDates (parseFullV true env hints input)
        ≠ ParseOutcome.ok p
      unfold parseFullV
      rw [hzc]
      show refineDates (parseFullRest true env hints input
        (Except.error [Issue.mk ["custodian"] "Required"]))
        ≠ ParseOutcome.ok p
      rw [hjs]
      simp [refineDates]

/-- Witness for claim C10: a concrete input with an empty custodian fails
the base schema with the "Please select a custodian" issue, and a concrete
input with the custodian absent is not accepted by the reserve schema. -/
theorem c10_witness :
    (∃ issues,
      parseVariant SchemaVariant.base env0 none
          (RawInput.mk none (some "My booking") none none (some "") none
            none)
          = ParseOutcome.fail issues
        ∧ Issue.mk ["custodian"] "Please select a custodian" ∈ issues)
    ∧ parseVariant SchemaVariant.fullWithId env0 none
        (RawInput.mk (some "bk_1") (some "My booking") none none none
          (some "2024-01-12T09:00") (some "2024-01-12T18:00"))
        ≠ ParseOutcome.ok (ParsedBooking.mk (some "bk_1") "My booking" none
            none custodianJane (some (JSDate.mk 2024 1 12 9 0 0))
            (some (JSDate.mk 2024 1 12 18 0 0))) :=
  ⟨(c10_custodian_always_required SchemaVariant.base env0 none
      (RawInput.mk none (some "My booking") none none (some "") none
        none)).1 rfl,
    (c10_custodian_always_required SchemaVariant.fullWithId env0 none
      (RawInput.mk (some "bk_1") (some "My booking") none none none
        (some "2024-01-12T09:00") (some "2024-01-12T18:00"))).2 rfl
      (ParsedBooking.mk (some "bk_1") "My booking" none none custodianJane
        (some (JSDate.mk 2024 1 12 9 0 0))
        (some (JSDate.mk 2024 1 12 18 0 0)))⟩

/-- Claim C8: the derived date adjuster changes the end date only when the
booking is new, an end-date value is present (non-empty), and the new start
parses to a date strictly after the current end; in that case the end date
becomes 18:00 on the new start's calendar day rendered with the seconds
component removed. In every other case (booking not new, no end date, empty
end date, new start not after the current end, or an unparseable date) the
end date is left unchanged. The concrete example of the spec is included:
current end 2024-01-10T10:00 and new start 2024-01-12T09:00 yield
2024-01-12T18:00, while new start 2024-01-09T09:00 leaves the end
unchanged. -/
theorem c8_derived_date_adjuster :
    (∀ (endDate : Option String) (sv : String),
      onStartDateChange false endDate sv = endDate)
    ∧ (∀ (b : Bool) (sv : String), onStartDateChange b none sv = none)
    ∧ (∀ sv : String, onStartDateChange true (some "") sv = some "")
    ∧ (∀ (e sv : String) (ns ec : JSDate),
        e ≠ "" → parseDateTimeLocal sv = some ns →
        parseDateTimeLocal e = some ec → toSecs ns ≤ toSecs ec →
        onStartDateChange true (some e) sv = some e)
    ∧ (∀ (e sv : String), e ≠ "" → parseDateTimeLocal sv = none →
        onStartDateChange true (some e) sv = some e)
    ∧ (∀ (e sv : String) (ns : JSDate), e ≠ "" →
        parseDateTimeLocal sv = some ns → parseDateTimeLocal e = none →
        onStartDateChange true (some e) sv = some e)
    ∧ (∀ (e sv : String) (ns ec : JSDate),
        e ≠ "" → parseDateTimeLocal sv = some ns →
        parseDateTimeLocal e = some ec → toSecs ec < toSecs ns →
        onStartDateChange true (some e) sv
          = some (dropLast3 (dateForDateTimeInputValue
              (JSDate.mk ns.year ns.month ns.day 18 0 0))))
    ∧ onStartDateChange true (some "2024-01-10T10:00") "2024-01-12T09:00"
        = some "2024-01-12T18:00"
    ∧ onStartDateChange true (some "2024-01-10T10:00") "2024-01-09T09:00"
        = some "2024-01-10T10:00" := by
  refine ⟨?_, ?_, ?_, ?_, ?_, ?_, ?_, rfl, rfl⟩
  · intro endDate sv
    cases endDate with
    | none => rfl
    | some e => simp [onStartDateChange]
  · intro b sv
    rfl
  · intro sv
    simp [onStartDateChange]
  · intro e sv ns ec hne hsv he hle
    have hb : (e == "") = false := beq_eq_false_iff_ne.mpr hne
    have hnlt : ¬ toSecs ec < toSecs ns := by omega
    simp only [onStartDateChange, hb, Bool.not_false, Bool.and_true, hsv, he,
      if_true]
    rw [if_neg hnlt]
  · intro e sv hne hsv
    have hb : (e == "") = false := beq_eq_false_iff_ne.mpr hne
    simp only [onStartDateChange, hb, Bool.not_false, Bool.and_true, hsv,
      if_true]
  · intro e sv ns hne hsv he
    have hb : (e == "") = false := beq_eq_false_iff_ne.mpr hne
    simp only [onStartDateChange, hb, Bool.not_false, Bool.and_true, hsv, he,
      if_true]
  · intro e sv ns ec hne hsv he hlt
    have hb : (e == "") = false := beq_eq_false_iff_ne.mpr hne
    simp only [onStartDateChange, hb, Bool.not_false, Bool.and_true, hsv, he,
      if_true]
    rw [if_pos hlt]

/-- Witness for claim C8: the change case applied at the spec's example
inputs, with every hypothesis discharged concretely. -/
theorem c8_witness :
    onStartDateChange true (some "2024-01-10T10:00") "2024-01-12T09:00"
      = some (dropLast3 (dateForDateTimeInputValue
          (JSDate.mk 2024 1 12 18 0 0))) :=
  c8_derived_date_adjuster.2.2.2.2.2.2.1 "2024-01-10T10:00"
    "2024-01-12T09:00" (JSDate.mk 2024 1 12 9 0 0)
    (JSDate.mk 2024 1 10 10 0 0) (by decide) rfl rfl (by decide)

end BookingForm
